import Mathlib

/-!
Verification of the agent-mux status reconciler, attention heuristic,
agent resolution and persisted-state store.

The definitions below are a shallow embedding of the Go sources:
`internal/agent/reconcile.go` (WindowActivity-based reconciler),
`internal/agent/tmux.go` (`needsAttention`), `internal/provider/provider.go`
(`Resolve`, `resolveAgentPanes`) and `internal/agent/persist.go`
(`LoadState`/`SaveState`, version-4 schema). Go maps keyed by pane target
are embedded as functions `String → Option α`; Go's zero-value lookup for a
missing key is made explicit with `Option.getD`.
-/

namespace AgentMux

/-- Embedding of Go `type PaneStatus int`; the constants follow the `iota`
order in the source. -/
abbrev PaneStatus := Int

def StatusIdle : PaneStatus := 0
def StatusBusy : PaneStatus := 1
def StatusNeedsAttention : PaneStatus := 2
def StatusUnread : PaneStatus := 3

/-- The fields of `Pane` that the reconciler reads or writes
(`Target`, `WindowActivity`, `HeuristicAttention`, `Status`); the other
fields of the Go struct are never touched by `Reconcile`. -/
structure Pane where
  Target : String
  WindowActivity : Int
  HeuristicAttention : Bool
  Status : PaneStatus
deriving Repr, DecidableEq

/-- Embedding of `StatusOverride` (reconcile.go): a user-toggled status plus
the window activity recorded at override time. -/
structure StatusOverride where
  Status : PaneStatus
  WindowActivity : Int
deriving Repr, DecidableEq

/-- Embedding of the `Reconciler` struct: the three per-target maps. -/
structure Reconciler where
  prevActivity : String → Option Int
  prevStatuses : String → Option PaneStatus
  overrides : String → Option StatusOverride

/-- Point update of an embedded Go map (`m[k] = v` / `delete(m, k)`). -/
def mapUpdate {α : Type} (m : String → Option α) (k : String) (v : Option α) :
    String → Option α :=
  fun t => if t = k then v else m t

/-- Embedding of `NewReconciler`: all three maps empty. -/
def NewReconciler : Reconciler :=
  { prevActivity := fun _ => none
    prevStatuses := fun _ => none
    overrides := fun _ => none }

/-- Go's `r.prevStatuses[t]` returns the zero value `StatusIdle` for a
missing key. -/
def statusLookup (r : Reconciler) (t : String) : PaneStatus :=
  (r.prevStatuses t).getD StatusIdle

/-- Embedding of `prev, seen := r.prevActivity[p.Target]; seen && p.WindowActivity > prev`. -/
def activityIncreased (r : Reconciler) (p : Pane) : Bool :=
  match r.prevActivity p.Target with
  | some prev => p.WindowActivity > prev
  | none => false

/-- The if/else chain of `Reconcile` (reconcile.go lines 293-303) that picks
the new status once any override has been handled. When no branch fires the
pane keeps its incoming status. -/
def reconcileStatus (r : Reconciler) (p : Pane) : PaneStatus :=
  if activityIncreased r p then StatusBusy
  else if p.HeuristicAttention then StatusNeedsAttention
  else if statusLookup r p.Target = StatusBusy then StatusUnread
  else if statusLookup r p.Target = StatusNeedsAttention ∨
      statusLookup r p.Target = StatusUnread then statusLookup r p.Target
  else p.Status

/-- The non-override path of the loop body: compute the new status, then
record the new activity baseline and previous status. -/
def reconcileNormal (r : Reconciler) (p : Pane) : Reconciler × Pane :=
  let st := reconcileStatus r p
  ({ r with
      prevActivity := mapUpdate r.prevActivity p.Target (some p.WindowActivity)
      prevStatuses := mapUpdate r.prevStatuses p.Target (some st) },
   { p with Status := st })

/-- One iteration of the `Reconcile` loop for a single pane: override
handling first (reconcile.go lines 282-291), then the normal state machine. -/
def reconcilePane (r : Reconciler) (p : Pane) : Reconciler × Pane :=
  match r.overrides p.Target with
  | some ov =>
    if p.WindowActivity > ov.WindowActivity then
      reconcileNormal
        { r with overrides := mapUpdate r.overrides p.Target none } p
    else
      ({ r with
          prevActivity := mapUpdate r.prevActivity p.Target (some p.WindowActivity)
          prevStatuses := mapUpdate r.prevStatuses p.Target (some ov.Status) },
       { p with Status := ov.Status })
  | none => reconcileNormal r p

/-- The `for i := range panes` loop of `Reconcile`, threading the reconciler
state left to right and collecting the updated panes. -/
def reconcileList (r : Reconciler) : List Pane → Reconciler × List Pane
  | [] => (r, [])
  | p :: rest =>
    let rp := reconcilePane r p
    let rr := reconcileList rp.1 rest
    (rr.1, rp.2 :: rr.2)

/-- Embedding of `cleanup` (reconcile.go lines 350-364). The first Go loop
ranges over the keys of `prevActivity` and deletes all three entries for
targets that are not alive; a `prevStatuses` entry whose target has no
`prevActivity` entry is therefore kept. The second loop deletes every
non-alive override. -/
def cleanup (alive : List String) (r : Reconciler) : Reconciler :=
  { prevActivity := fun t => if t ∈ alive then r.prevActivity t else none
    prevStatuses := fun t =>
      if t ∈ alive ∨ r.prevActivity t = none then r.prevStatuses t else none
    overrides := fun t => if t ∈ alive then r.overrides t else none }

/-- Embedding of `Reconciler.Reconcile`: run the loop on every pane, then
purge state for targets absent from the pane set. -/
def Reconcile (r : Reconciler) (panes : List Pane) : Reconciler × List Pane :=
  let res := reconcileList r panes
  (cleanup (panes.map (·.Target)) res.1, res.2)

/-- Embedding of the version-4 `CachedPane` persisted record. Field set and
JSON tags follow `persist.go` with the activity baseline carried as
`WindowActivity`, matching the fields the reconciler reads from cached panes
(`SeedFromState`, `MergeOverrides`, `ApplyToCache`) and the spec's
"optional activity baseline" (§6); `LastActive` is kept as the opaque
timestamp string `time.Time` marshals to. -/
structure CachedPane where
  Target : String
  Path : String
  ShortPath : String
  GitBranch : String
  GitDirty : Bool
  Stashed : Bool
  StatusOverride : Option Int
  WindowActivity : Int
  LastStatus : Option Int
  LastActive : Option String
deriving Repr, DecidableEq

/-- Embedding of `LastPosition` (persist.go). -/
structure LastPosition where
  PaneTarget : String
  Cursor : Int
  ScrollStart : Int
deriving Repr, DecidableEq

/-- Embedding of the persisted `State` document (persist.go, version 4). -/
structure State where
  Version : Int
  Panes : List CachedPane
  LastPosition : LastPosition
  SidebarWidth : Int
deriving Repr, DecidableEq

/-- One iteration of the `SeedFromState` loop over `state.Panes`. -/
def seedPane (r : Reconciler) (cp : CachedPane) : Reconciler :=
  let r1 :=
    if cp.WindowActivity ≠ 0 then
      { r with prevActivity := mapUpdate r.prevActivity cp.Target (some cp.WindowActivity) }
    else r
  let r2 :=
    match cp.LastStatus with
    | some s => { r1 with prevStatuses := mapUpdate r1.prevStatuses cp.Target (some s) }
    | none => r1
  match cp.StatusOverride with
  | some s =>
    { r2 with
        overrides := mapUpdate r2.overrides cp.Target
          (some { Status := s, WindowActivity := cp.WindowActivity }) }
  | none => r2

/-- Embedding of `Reconciler.SeedFromState` (reconcile.go lines 216-231). -/
def SeedFromState (r : Reconciler) (state : State) : Reconciler :=
  state.Panes.foldl seedPane r

/-- One iteration of the `MergeOverrides` loop: skip panes with no persisted
override, skip targets already tracked locally, otherwise absorb. -/
def mergePane (r : Reconciler) (cp : CachedPane) : Reconciler :=
  match cp.StatusOverride with
  | none => r
  | some s =>
    match r.overrides cp.Target with
    | some _ => r
    | none =>
      { r with
          overrides := mapUpdate r.overrides cp.Target
            (some { Status := s, WindowActivity := cp.WindowActivity }) }

/-- Embedding of `Reconciler.MergeOverrides` (reconcile.go lines 314-327). -/
def MergeOverrides (r : Reconciler) (state : State) : Reconciler :=
  state.Panes.foldl mergePane r

/-! ### Attention heuristic (`tmux.go`, `needsAttention`) -/

/-- The whitespace predicate backing Go's `strings.TrimSpace`
(`unicode.IsSpace` restricted to the code points that occur in terminal
capture output). -/
def goIsSpace (c : Char) : Bool :=
  c = ' ' || c = '\t' || c = '\n' || c = '\x0b' || c = '\x0c' || c = '\r' ||
    c = '\x85' || c = '\xa0'

/-- Embedding of `strings.TrimSpace`. -/
def trimSpace (s : String) : String :=
  String.mk (((s.toList.dropWhile goIsSpace).reverse.dropWhile goIsSpace).reverse)

/-- Substring search on character lists: the pattern occurs at the head or
somewhere in the tail. -/
def subList : List Char → List Char → Bool
  | sub, [] => List.isPrefixOf sub []
  | sub, s@(_ :: t) => List.isPrefixOf sub s || subList sub t

/-- Embedding of `strings.Contains`. -/
def goContains (s sub : String) : Bool :=
  subList sub.toList s.toList

/-- Embedding of `strings.HasSuffix`. -/
def goHasSuffix (s suf : String) : Bool :=
  List.isSuffixOf suf.toList s.toList

/-- Embedding of `strings.HasPrefix`. -/
def goStartsWith (s p : String) : Bool :=
  List.isPrefixOf p.toList s.toList

/-- The fixed phrase patterns of `needsAttention` (tmux.go lines 195-225),
in source order. -/
def attentionPatterns : List String :=
  ["Do you want to proceed?",
   "Do you want to allow",
   "Allow once",
   "press Enter to approve",
   "Enter to select",
   "Type something",
   "Esc to cancel",
   "I\x27ll wait for your",
   "waiting for your response",
   "Let me know when",
   "Please let me know",
   "What would you like",
   "How would you like",
   "Should I proceed",
   "Would you like me to",
   "please provide",
   "please specify",
   "I need more information",
   "Could you clarify",
   "awaiting your",
   "ready when you are",
   "let me know if you\x27d like",
   "Feel free to ask",
   "Is there anything else",
   "What else can I help",
   "Want me to",
   "Shall I",
   "Do you want me to",
   "Ready to proceed"]

/-- The backward scan of `needsAttention` (tmux.go lines 230-238), applied to
the reversed line list: a trimmed-empty line is skipped, a line that ends in
"?" and does not start with the prompt glyph returns true, and any other
line falls through to the next older line (the Go loop has no early exit on
a non-matching non-empty line). -/
def questionScan : List String → Bool
  | [] => false
  | l :: rest =>
    let line := trimSpace l
    if line = "" then questionScan rest
    else if goHasSuffix line "?" && !goStartsWith line "❯" then true
    else questionScan rest

/-- Embedding of `needsAttention` (tmux.go lines 193-240). -/
def needsAttention (lines : List String) : Bool :=
  let content := String.intercalate "\n" lines
  attentionPatterns.any (fun pat => goContains content pat) ||
    questionScan lines.reverse

/-- Detector following the spec's words (§4.4 and the C5 claim): a fixed
phrase anywhere in the window, or the most recent non-empty line — scanning
backward through blank lines only — ends with a question mark. Used to
compare the spec's description against `needsAttention`. -/
def specNeedsAttention (lines : List String) : Bool :=
  let content := String.intercalate "\n" lines
  attentionPatterns.any (fun pat => goContains content pat) ||
    (match lines.reverse.dropWhile (fun l => trimSpace l = "") with
     | [] => false
     | l :: _ => goHasSuffix (trimSpace l) "?")

/-! ### Agent resolution (`provider.go`, `tmux.go`) -/

/-- Embedding of `ProcessTable`; Go map lookups on a missing key give the
zero value, so the maps are embedded as total functions with `[]` / `""`
defaults already applied. -/
structure ProcessTable where
  Children : Int → List Int
  Comm : Int → String
  Args : Int → String

/-- Split a character list at every occurrence of a separator character,
keeping empty segments — the semantics of Go's `strings.Split` for a
one-character separator. -/
def splitChar (sep : Char) : List Char → List (List Char)
  | [] => [[]]
  | c :: rest =>
    match splitChar sep rest with
    | [] => [[]]
    | cur :: done =>
      if c = sep then [] :: cur :: done else (c :: cur) :: done

/-- Go's `strings.Split` for a one-character separator. -/
def goSplit (sep : Char) (s : String) : List String :=
  (splitChar sep s.toList).map String.mk

/-- Path-stripping step used twice in `Resolve`
(`strings.LastIndex(s, "/")`, then the suffix after it). -/
def stripPath (s : String) : String :=
  String.mk ((splitChar '/' s.toList).getLastD s.toList)

/-- Scan of a child's argument tokens (provider.go lines 43-50). -/
def scanArgs (registry : String → Bool) : List String → Option String
  | [] => none
  | a :: rest =>
    let a := stripPath a
    if registry a then some a else scanArgs registry rest

/-- Walk over the children of the shell process (provider.go lines 34-51):
the child's command basename first, then its argument tokens; first match
wins. -/
def scanChildren (registry : String → Bool) (pt : ProcessTable) :
    List Int → Option String
  | [] => none
  | c :: rest =>
    let base := stripPath (pt.Comm c)
    if registry base then some base
    else
      match scanArgs registry (goSplit ' ' (pt.Args c)) with
      | some a => some a
      | none => scanChildren registry pt rest

/-- Embedding of `provider.Resolve` (provider.go lines 30-53); the global
registry is passed explicitly. Returns `""` when nothing matches. -/
def Resolve (registry : String → Bool) (cmd : String) (shellPID : Int)
    (pt : ProcessTable) : String :=
  if registry cmd then cmd
  else
    match scanChildren registry pt (pt.Children shellPID) with
    | some c => c
    | none => ""

/-- The fields of `rawPane` that agent resolution reads or writes. -/
structure RawPane where
  target : String
  cmd : String
  pid : Int
deriving Repr, DecidableEq

/-- Embedding of `resolveAgentPanes` (tmux.go lines 44-55): keep only panes
whose command resolves to a registered agent, rewriting `cmd` to the
resolved name. -/
def resolveAgentPanes (registry : String → Bool) (pt : ProcessTable)
    (raw : List RawPane) : List RawPane :=
  raw.filterMap (fun r =>
    let cmd := Resolve registry r.cmd r.pid pt
    if cmd = "" then none else some { r with cmd := cmd })

/-! ### Persisted state store (`persist.go`) -/

/-- JSON documents, as far as the version-4 state schema needs them: all
numbers written or read by the store are integers. -/
inductive Json where
  | null
  | jbool (b : Bool)
  | jnum (n : Int)
  | jstr (s : String)
  | jarr (xs : List Json)
  | jobj (fields : List (String × Json))

/-- Field lookup in a JSON object with Go's duplicate-key semantics: the
last occurrence of a key wins. -/
def lookupField : List (String × Json) → String → Option Json
  | [], _ => none
  | kv :: rest, name =>
    match lookupField rest name with
    | some w => some w
    | none => if kv.1 = name then some kv.2 else none

/-- An `omitempty`-style JSON object fragment: present only when `b`. -/
def fieldIf (b : Bool) (name : String) (j : Json) : List (String × Json) :=
  if b then [(name, j)] else []

/-- The JSON object fields `encoding/json` emits for a `CachedPane`,
honoring each field's `omitempty` tag. -/
def paneFields (cp : CachedPane) : List (String × Json) :=
  [("target", .jstr cp.Target), ("path", .jstr cp.Path),
   ("shortPath", .jstr cp.ShortPath)] ++
  fieldIf (cp.GitBranch ≠ "") "gitBranch" (.jstr cp.GitBranch) ++
  fieldIf cp.GitDirty "gitDirty" (.jbool cp.GitDirty) ++
  [("stashed", .jbool cp.Stashed)] ++
  (match cp.StatusOverride with
   | some s => [("statusOverride", Json.jnum s)]
   | none => []) ++
  fieldIf (cp.WindowActivity ≠ 0) "windowActivity" (.jnum cp.WindowActivity) ++
  (match cp.LastStatus with
   | some s => [("lastStatus", Json.jnum s)]
   | none => []) ++
  (match cp.LastActive with
   | some t => [("lastActive", Json.jstr t)]
   | none => [])

/-- `encoding/json` marshalling of one cached pane. -/
def encodePane (cp : CachedPane) : Json :=
  .jobj (paneFields cp)

/-- `encoding/json` marshalling of `LastPosition` (no `omitempty` tags). -/
def encodeLastPosition (lp : LastPosition) : Json :=
  .jobj [("pane_target", .jstr lp.PaneTarget), ("cursor", .jnum lp.Cursor),
         ("scroll_start", .jnum lp.ScrollStart)]

/-- `encoding/json` marshalling of the whole `State` document. -/
def encodeState (s : State) : Json :=
  .jobj ([("version", .jnum s.Version),
          ("panes", .jarr (s.Panes.map encodePane)),
          ("lastPosition", encodeLastPosition s.LastPosition)] ++
         fieldIf (s.SidebarWidth ≠ 0) "sidebarWidth" (.jnum s.SidebarWidth))

/-- Unmarshal a `string` field: absent or JSON `null` leaves the zero value,
a JSON string is taken, anything else is a type error. -/
def decStr : Option Json → Option String
  | none => some ""
  | some .null => some ""
  | some (.jstr s) => some s
  | some _ => none

/-- Unmarshal an integer field (`int` / `int64`). -/
def decInt : Option Json → Option Int
  | none => some 0
  | some .null => some 0
  | some (.jnum n) => some n
  | some _ => none

/-- Unmarshal a `bool` field. -/
def decBool : Option Json → Option Bool
  | none => some false
  | some .null => some false
  | some (.jbool b) => some b
  | some _ => none

/-- Unmarshal a `*int` field: absent or `null` is a nil pointer. -/
def decOptInt : Option Json → Option (Option Int)
  | none => some none
  | some .null => some none
  | some (.jnum n) => some (some n)
  | some _ => none

/-- Unmarshal a `*time.Time` field kept as its marshalled string. -/
def decOptStr : Option Json → Option (Option String)
  | none => some none
  | some .null => some none
  | some (.jstr s) => some (some s)
  | some _ => none

/-- Zero value of `CachedPane` (Go `CachedPane{}`). -/
def zeroPane : CachedPane :=
  { Target := "", Path := "", ShortPath := "", GitBranch := "",
    GitDirty := false, Stashed := false, StatusOverride := none,
    WindowActivity := 0, LastStatus := none, LastActive := none }

/-- Unmarshal one cached pane from a JSON value. -/
def decodePane : Json → Option CachedPane
  | .null => some zeroPane
  | .jobj fields => do
    let target ← decStr (lookupField fields "target")
    let path ← decStr (lookupField fields "path")
    let shortPath ← decStr (lookupField fields "shortPath")
    let gitBranch ← decStr (lookupField fields "gitBranch")
    let gitDirty ← decBool (lookupField fields "gitDirty")
    let stashed ← decBool (lookupField fields "stashed")
    let statusOverride ← decOptInt (lookupField fields "statusOverride")
    let windowActivity ← decInt (lookupField fields "windowActivity")
    let lastStatus ← decOptInt (lookupField fields "lastStatus")
    let lastActive ← decOptStr (lookupField fields "lastActive")
    some { Target := target, Path := path, ShortPath := shortPath,
           GitBranch := gitBranch, GitDirty := gitDirty, Stashed := stashed,
           StatusOverride := statusOverride, WindowActivity := windowActivity,
           LastStatus := lastStatus, LastActive := lastActive }
  | _ => none

/-- Unmarshal the elements of the `panes` array in order; any element error
fails the whole unmarshal. -/
def decodePaneList : List Json → Option (List CachedPane)
  | [] => some []
  | j :: rest => do
    let cp ← decodePane j
    let rest' ← decodePaneList rest
    some (cp :: rest')

/-- Unmarshal the `panes` array: absent or `null` is a nil slice. -/
def decodePanes : Option Json → Option (List CachedPane)
  | none => some []
  | some .null => some []
  | some (.jarr xs) => decodePaneList xs
  | some _ => none

/-- Zero value of `LastPosition`. -/
def zeroLastPosition : LastPosition :=
  { PaneTarget := "", Cursor := 0, ScrollStart := 0 }

/-- Unmarshal the `lastPosition` object. -/
def decodeLastPosition : Option Json → Option LastPosition
  | none => some zeroLastPosition
  | some .null => some zeroLastPosition
  | some (.jobj fields) => do
    let pt ← decStr (lookupField fields "pane_target")
    let cursor ← decInt (lookupField fields "cursor")
    let scroll ← decInt (lookupField fields "scroll_start")
    some { PaneTarget := pt, Cursor := cursor, ScrollStart := scroll }
  | some _ => none

/-- Zero value of `State` (Go `State{}`), what `LoadState` returns on any
failure. -/
def zeroState : State :=
  { Version := 0, Panes := [], LastPosition := zeroLastPosition,
    SidebarWidth := 0 }

/-- `json.Unmarshal` into a `State`: a top-level object (or `null`, which
leaves the zero value) succeeds field-wise; any other top-level value or any
field type mismatch is an error. -/
def decodeState : Json → Option State
  | .null => some zeroState
  | .jobj fields => do
    let version ← decInt (lookupField fields "version")
    let panes ← decodePanes (lookupField fields "panes")
    let lp ← decodeLastPosition (lookupField fields "lastPosition")
    let sw ← decInt (lookupField fields "sidebarWidth")
    some { Version := version, Panes := panes, LastPosition := lp,
           SidebarWidth := sw }
  | _ => none

/-- Embedding of `LoadState` (persist.go lines 254-270). The state file's
content is `none` when the read fails, otherwise `some` of the parse result
(`none` inside for malformed JSON). Any read failure, parse failure or
version mismatch yields the zero `State` and `false`. -/
def LoadState (data : Option (Option Json)) : State × Bool :=
  match data with
  | none => (zeroState, false)
  | some none => (zeroState, false)
  | some (some j) =>
    match decodeState j with
    | none => (zeroState, false)
    | some st => if st.Version = 4 then (st, true) else (zeroState, false)

/-- Embedding of `SaveState` (persist.go lines 272-280): stamp the current
schema version and marshal the full document; the result is the file
content the write produces. -/
def SaveState (state : State) : Json :=
  encodeState { state with Version := 4 }

/-! ### Reconciler lemmas -/

/-- The status `reconcilePane` assigns to a pane, as a pure function of the
reconciler state at the pane's target. -/
def paneOutStatus (r : Reconciler) (p : Pane) : PaneStatus :=
  match r.overrides p.Target with
  | some ov =>
    if p.WindowActivity > ov.WindowActivity then reconcileStatus r p
    else ov.Status
  | none => reconcileStatus r p

/-- Two reconciler states agree on everything tracked for one target. -/
def agreeAt (r r' : Reconciler) (t : String) : Prop :=
  r.prevActivity t = r'.prevActivity t ∧
    r.prevStatuses t = r'.prevStatuses t ∧
    r.overrides t = r'.overrides t

theorem reconcileStatus_overrides_irrel (r : Reconciler) (o : String → Option StatusOverride)
    (p : Pane) : reconcileStatus { r with overrides := o } p = reconcileStatus r p := rfl

theorem reconcilePane_snd (r : Reconciler) (p : Pane) :
    (reconcilePane r p).2 = { p with Status := paneOutStatus r p } := by
  unfold reconcilePane paneOutStatus reconcileNormal
  cases h : r.overrides p.Target with
  | none => rfl
  | some ov =>
    by_cases hgt : p.WindowActivity > ov.WindowActivity <;>
      simp [hgt, reconcileStatus_overrides_irrel]

theorem reconcilePane_prevActivity_self (r : Reconciler) (p : Pane) :
    (reconcilePane r p).1.prevActivity p.Target = some p.WindowActivity := by
  unfold reconcilePane reconcileNormal
  cases h : r.overrides p.Target with
  | none => simp [mapUpdate]
  | some ov =>
    by_cases hgt : p.WindowActivity > ov.WindowActivity <;> simp [hgt, mapUpdate]

theorem reconcilePane_prevStatuses_self (r : Reconciler) (p : Pane) :
    (reconcilePane r p).1.prevStatuses p.Target = some (paneOutStatus r p) := by
  unfold reconcilePane reconcileNormal paneOutStatus
  cases h : r.overrides p.Target with
  | none => simp [mapUpdate]
  | some ov =>
    by_cases hgt : p.WindowActivity > ov.WindowActivity <;>
      simp [hgt, mapUpdate, reconcileStatus_overrides_irrel]

theorem reconcilePane_overrides_self (r : Reconciler) (p : Pane) :
    (reconcilePane r p).1.overrides p.Target =
      match r.overrides p.Target with
      | none => none
      | some ov =>
        if p.WindowActivity > ov.WindowActivity then none else some ov := by
  unfold reconcilePane reconcileNormal
  cases h : r.overrides p.Target with
  | none => simp [h]
  | some ov =>
    by_cases hgt : p.WindowActivity > ov.WindowActivity <;> simp [h, hgt, mapUpdate]

theorem reconcilePane_frame (r : Reconciler) (p : Pane) (t : String)
    (h : t ≠ p.Target) : agreeAt (reconcilePane r p).1 r t := by
  unfold reconcilePane reconcileNormal agreeAt
  cases ho : r.overrides p.Target with
  | none => simp [mapUpdate, h]
  | some ov =>
    by_cases hgt : p.WindowActivity > ov.WindowActivity <;> simp [hgt, mapUpdate, h]

theorem paneOutStatus_congr (r r' : Reconciler) (p : Pane)
    (h : agreeAt r r' p.Target) : paneOutStatus r p = paneOutStatus r' p := by
  obtain ⟨ha, hs, ho⟩ := h
  unfold paneOutStatus reconcileStatus activityIncreased statusLookup
  rw [ha, hs, ho]

theorem reconcileList_length (r : Reconciler) (panes : List Pane) :
    (reconcileList r panes).2.length = panes.length := by
  induction panes generalizing r with
  | nil => rfl
  | cons p rest ih => simp [reconcileList, ih]

theorem reconcileList_frame (r : Reconciler) (panes : List Pane) (t : String)
    (h : ∀ p ∈ panes, p.Target ≠ t) : agreeAt (reconcileList r panes).1 r t := by
  induction panes generalizing r with
  | nil => exact ⟨rfl, rfl, rfl⟩
  | cons p rest ih =>
    have hp : t ≠ p.Target := fun he => h p (by simp) he.symm
    have h1 := reconcilePane_frame r p t hp
    have h2 := ih (reconcilePane r p).1 (fun q hq => h q (by simp [hq]))
    exact ⟨h2.1.trans h1.1, h2.2.1.trans h1.2.1, h2.2.2.trans h1.2.2⟩

theorem reconcileList_append (r : Reconciler) (l1 l2 : List Pane) :
    reconcileList r (l1 ++ l2) =
      ((reconcileList (reconcileList r l1).1 l2).1,
       (reconcileList r l1).2 ++ (reconcileList (reconcileList r l1).1 l2).2) := by
  induction l1 generalizing r with
  | nil => simp [reconcileList]
  | cons p rest ih => simp [reconcileList, ih]

/-- The output pane for position `pre.length` of a reconciliation run on
`pre ++ p :: post`: when no earlier pane shares `p`'s target, the assigned
status is `paneOutStatus` of the incoming reconciler state. -/
theorem reconcile_out (r : Reconciler) (pre post : List Pane) (p : Pane)
    (hpre : ∀ q ∈ pre, q.Target ≠ p.Target) :
    (Reconcile r (pre ++ p :: post)).2[pre.length]? =
      some { p with Status := paneOutStatus r p } := by
  unfold Reconcile
  simp only [reconcileList_append, reconcileList]
  rw [List.getElem?_append_right (by simp [reconcileList_length])]
  simp [reconcileList_length, reconcilePane_snd]
  exact paneOutStatus_congr _ r p (reconcileList_frame r pre p.Target hpre)

/-- The reconciler state at `p.Target` after a full `Reconcile` run on
`pre ++ p :: post` in which no other pane shares `p`'s target. -/
theorem reconcile_state_at (r : Reconciler) (pre post : List Pane) (p : Pane)
    (hpre : ∀ q ∈ pre, q.Target ≠ p.Target)
    (hpost : ∀ q ∈ post, q.Target ≠ p.Target) :
    (Reconcile r (pre ++ p :: post)).1.prevActivity p.Target = some p.WindowActivity ∧
    (Reconcile r (pre ++ p :: post)).1.prevStatuses p.Target = some (paneOutStatus r p) ∧
    (Reconcile r (pre ++ p :: post)).1.overrides p.Target =
      (match r.overrides p.Target with
       | none => none
       | some ov =>
         if p.WindowActivity > ov.WindowActivity then none else some ov) := by
  have halive : p.Target ∈ (pre ++ p :: post).map (·.Target) := by simp
  have hagree1 := reconcileList_frame r pre p.Target hpre
  have hmid :
      agreeAt (reconcilePane (reconcileList r pre).1 p).1 (reconcilePane r p).1 p.Target := by
    have ha := hagree1
    have h2 := reconcilePane_overrides_self (reconcileList r pre).1 p
    have h3 := reconcilePane_overrides_self r p
    refine ⟨?_, ?_, ?_⟩
    · rw [reconcilePane_prevActivity_self, reconcilePane_prevActivity_self]
    · rw [reconcilePane_prevStatuses_self, reconcilePane_prevStatuses_self,
        paneOutStatus_congr _ r p ha]
    · rw [h2, h3, ha.2.2]
  have hpostf := reconcileList_frame (reconcilePane (reconcileList r pre).1 p).1 post
    p.Target hpost
  have hfinal :
      agreeAt (reconcileList r (pre ++ p :: post)).1 (reconcilePane r p).1 p.Target := by
    rw [reconcileList_append]
    simp only [reconcileList]
    exact ⟨hpostf.1.trans hmid.1, hpostf.2.1.trans hmid.2.1, hpostf.2.2.trans hmid.2.2⟩
  unfold Reconcile
  simp only [cleanup, halive, if_pos, true_or, if_true]
  refine ⟨?_, ?_, ?_⟩
  · rw [hfinal.1, reconcilePane_prevActivity_self]
  · rw [hfinal.2.1, reconcilePane_prevStatuses_self]
  · rw [hfinal.2.2, reconcilePane_overrides_self]

/-! ### Claim theorems: the reconciler state machine -/

/-- C1: for every pane reconciled in two consecutive `Reconcile` calls with
no active override for its target at the second call, if the pane's
`WindowActivity` in the second call strictly exceeds the baseline recorded
from the first call (the first call's `WindowActivity`), the status assigned
in the second call is `Busy`, regardless of the heuristic signal or the
previous status. -/
theorem reconcile_fresh_activity_busy (r : Reconciler)
    (pre1 post1 pre2 post2 : List Pane) (p1 p2 : Pane)
    (hpre1 : ∀ q ∈ pre1, q.Target ≠ p1.Target)
    (hpost1 : ∀ q ∈ post1, q.Target ≠ p1.Target)
    (hpre2 : ∀ q ∈ pre2, q.Target ≠ p2.Target)
    (htgt : p2.Target = p1.Target)
    (hov : (Reconcile r (pre1 ++ p1 :: post1)).1.overrides p2.Target = none)
    (hact : p2.WindowActivity > p1.WindowActivity) :
    (Reconcile (Reconcile r (pre1 ++ p1 :: post1)).1
        (pre2 ++ p2 :: post2)).2[pre2.length]? =
      some { p2 with Status := StatusBusy } := by
  have hstate := reconcile_state_at r pre1 post1 p1 hpre1 hpost1
  rw [reconcile_out _ pre2 post2 p2 hpre2]
  have hpo : paneOutStatus (Reconcile r (pre1 ++ p1 :: post1)).1 p2 = StatusBusy := by
    unfold paneOutStatus
    rw [hov]
    show reconcileStatus _ p2 = StatusBusy
    unfold reconcileStatus activityIncreased
    rw [htgt, hstate.1]
    simp [hact]
  rw [hpo]

/-- C2: with an active override, the override's status is applied verbatim
(whatever the heuristic signal) whenever the current `WindowActivity` does
not exceed the recorded activity, and the activity baseline is still
updated; on the first cycle where the current `WindowActivity` strictly
exceeds the recorded activity the override is removed and the normal state
machine runs, yielding `Busy` when the baseline is also exceeded. -/
theorem reconcile_override_semantics (r : Reconciler) (pre post : List Pane)
    (p : Pane) (ov : StatusOverride)
    (hpre : ∀ q ∈ pre, q.Target ≠ p.Target)
    (hpost : ∀ q ∈ post, q.Target ≠ p.Target)
    (hov : r.overrides p.Target = some ov) :
    (¬ p.WindowActivity > ov.WindowActivity →
       (Reconcile r (pre ++ p :: post)).2[pre.length]? =
           some { p with Status := ov.Status } ∧
         (Reconcile r (pre ++ p :: post)).1.prevActivity p.Target =
           some p.WindowActivity) ∧
    (p.WindowActivity > ov.WindowActivity →
       (Reconcile r (pre ++ p :: post)).1.overrides p.Target = none ∧
         ∀ prev, r.prevActivity p.Target = some prev → p.WindowActivity > prev →
           (Reconcile r (pre ++ p :: post)).2[pre.length]? =
             some { p with Status := StatusBusy }) := by
  have hstate := reconcile_state_at r pre post p hpre hpost
  have hout := reconcile_out r pre post p hpre
  constructor
  · intro hle
    constructor
    · rw [hout]
      have : paneOutStatus r p = ov.Status := by
        unfold paneOutStatus
        rw [hov]
        simp [hle]
      rw [this]
    · exact hstate.1
  · intro hgt
    constructor
    · rw [hstate.2.2, hov]
      simp [hgt]
    · intro prev hprev hinc
      rw [hout]
      have : paneOutStatus r p = StatusBusy := by
        unfold paneOutStatus
        rw [hov]
        simp only [hgt, if_true]
        unfold reconcileStatus activityIncreased
        rw [hprev]
        simp [hinc]
      rw [this]

/-- C3: a pane with no override, previous status `Busy`, no activity
increase and no heuristic signal is assigned `Unread`; on a subsequent such
cycle the status stays `Unread` (carried forward), so the `Busy → Unread`
transition happens once per stall. -/
theorem reconcile_busy_stall_unread (r : Reconciler)
    (pre1 post1 pre2 post2 : List Pane) (p1 p2 : Pane)
    (hpre1 : ∀ q ∈ pre1, q.Target ≠ p1.Target)
    (hpost1 : ∀ q ∈ post1, q.Target ≠ p1.Target)
    (hpre2 : ∀ q ∈ pre2, q.Target ≠ p2.Target)
    (htgt : p2.Target = p1.Target)
    (hov : r.overrides p1.Target = none)
    (hbusy : r.prevStatuses p1.Target = some StatusBusy)
    (hstale1 : activityIncreased r p1 = false)
    (hheu1 : p1.HeuristicAttention = false)
    (hstale2 : ¬ p2.WindowActivity > p1.WindowActivity)
    (hheu2 : p2.HeuristicAttention = false) :
    (Reconcile r (pre1 ++ p1 :: post1)).2[pre1.length]? =
        some { p1 with Status := StatusUnread } ∧
      (Reconcile (Reconcile r (pre1 ++ p1 :: post1)).1
          (pre2 ++ p2 :: post2)).2[pre2.length]? =
        some { p2 with Status := StatusUnread } := by
  have hstate := reconcile_state_at r pre1 post1 p1 hpre1 hpost1
  have hpo1 : paneOutStatus r p1 = StatusUnread := by
    unfold paneOutStatus
    rw [hov]
    show reconcileStatus r p1 = StatusUnread
    unfold reconcileStatus statusLookup
    rw [hstale1, hbusy, hheu1]
    simp [StatusBusy]
  constructor
  · rw [reconcile_out r pre1 post1 p1 hpre1, hpo1]
  · rw [reconcile_out _ pre2 post2 p2 hpre2]
    have hov2 : (Reconcile r (pre1 ++ p1 :: post1)).1.overrides p2.Target = none := by
      rw [htgt, hstate.2.2, hov]
    have hpo2 : paneOutStatus (Reconcile r (pre1 ++ p1 :: post1)).1 p2 = StatusUnread := by
      unfold paneOutStatus
      rw [hov2]
      show reconcileStatus _ p2 = StatusUnread
      unfold reconcileStatus activityIncreased statusLookup
      rw [htgt, hstate.1, hstate.2.1, hpo1, hheu2]
      simp [hstale2, StatusUnread, StatusBusy, StatusNeedsAttention]
    rw [hpo2]

/-- C10: a pane whose target has no tracked state at all is never assigned
`Busy` on first sighting, whatever its `WindowActivity`: it gets
`NeedsAttention` when the heuristic fires and otherwise keeps the default
`Idle` status from discovery. -/
theorem reconcile_first_sighting_not_busy (r : Reconciler)
    (pre post : List Pane) (p : Pane)
    (hpre : ∀ q ∈ pre, q.Target ≠ p.Target)
    (ha : r.prevActivity p.Target = none)
    (hs : r.prevStatuses p.Target = none)
    (ho : r.overrides p.Target = none)
    (hst : p.Status = StatusIdle) :
    (Reconcile r (pre ++ p :: post)).2[pre.length]? =
      some { p with
        Status := if p.HeuristicAttention then StatusNeedsAttention else StatusIdle } := by
  rw [reconcile_out r pre post p hpre]
  have : paneOutStatus r p =
      if p.HeuristicAttention then StatusNeedsAttention else StatusIdle := by
    unfold paneOutStatus
    rw [ho]
    show reconcileStatus r p = _
    unfold reconcileStatus activityIncreased statusLookup
    rw [ha, hs, hst]
    cases p.HeuristicAttention <;>
      simp [StatusIdle, StatusBusy, StatusNeedsAttention, StatusUnread]
  rw [this]

/-- A reconciler with an orphaned `prevStatuses` entry: a status tracked for
target `"t"` with no activity baseline (as `SeedFromState` produces for a
cached pane whose `WindowActivity` is zero). -/
def rOrphan : Reconciler :=
  { NewReconciler with
      prevStatuses := fun t => if t = "t" then some StatusBusy else none }

/-- C4 counterexample: target `"t"` is tracked in `prevStatuses` and absent
from the reconciled pane set, yet its status entry survives `Reconcile` —
`cleanup`'s first loop only ranges over `prevActivity` keys. -/
theorem cleanup_keeps_orphan_status :
    ("t" ∉ ([] : List Pane).map (·.Target)) ∧
      rOrphan.prevStatuses "t" = some StatusBusy ∧
      (Reconcile rOrphan []).1.prevStatuses "t" = some StatusBusy := by
  refine ⟨by simp, rfl, ?_⟩
  rfl

/-- C4 amended: after `Reconcile`, every target absent from the pane set has
its activity baseline and override purged; its status entry is purged
exactly when the target had an activity baseline, and an orphaned status
entry (no baseline) is kept unchanged. -/
theorem cleanup_purges_absent_targets (r : Reconciler) (panes : List Pane)
    (t : String) (habs : t ∉ panes.map (·.Target)) :
    (Reconcile r panes).1.prevActivity t = none ∧
      (Reconcile r panes).1.overrides t = none ∧
      (r.prevActivity t ≠ none → (Reconcile r panes).1.prevStatuses t = none) ∧
      (r.prevActivity t = none →
        (Reconcile r panes).1.prevStatuses t = r.prevStatuses t) := by
  have hall : ∀ p ∈ panes, p.Target ≠ t := by
    intro p hp he
    exact habs (by simpa [he] using List.mem_map_of_mem (·.Target) hp)
  have hagree := reconcileList_frame r panes t hall
  simp only [Reconcile, cleanup]
  refine ⟨by simp [habs], by simp [habs], ?_, ?_⟩
  · intro hne
    rw [hagree.1]
    simp [habs, hne]
  · intro heq
    rw [hagree.1]
    simp [habs, heq, hagree.2.1]

/-! ### Concrete fixtures for witnesses -/

/-- A pane with the default `Idle` status, as discovery produces it. -/
def pW (t : String) (a : Int) (h : Bool) : Pane :=
  { Target := t, WindowActivity := a, HeuristicAttention := h, Status := StatusIdle }

/-- A reconciler tracking an `Idle` override recorded at activity 10 for
target `"a"`, baseline 10. -/
def rOv : Reconciler :=
  { NewReconciler with
      prevActivity := fun t => if t = "a" then some 10 else none
      overrides := fun t =>
        if t = "a" then some { Status := StatusIdle, WindowActivity := 10 } else none }

/-- A reconciler tracking status `Busy` at baseline 5 for target `"a"`. -/
def rBusy : Reconciler :=
  { NewReconciler with
      prevActivity := fun t => if t = "a" then some 5 else none
      prevStatuses := fun t => if t = "a" then some StatusBusy else none }

theorem reconcile_fresh_activity_busy_witness :
    (Reconcile NewReconciler [pW "a" 5 false]).1.overrides "a" = none ∧
      ((7 : Int) > 5) ∧
      (Reconcile (Reconcile NewReconciler [pW "a" 5 false]).1
          [pW "a" 7 true]).2[0]? =
        some { Target := "a", WindowActivity := 7, HeuristicAttention := true,
               Status := StatusBusy } :=
  ⟨by decide, by decide,
    reconcile_fresh_activity_busy NewReconciler [] [] [] [] (pW "a" 5 false)
      (pW "a" 7 true) (by simp) (by simp) (by simp) rfl (by decide) (by decide)⟩

theorem reconcile_override_semantics_witness :
    rOv.overrides "a" = some { Status := StatusIdle, WindowActivity := 10 } ∧
      (¬ (10 : Int) > 10) ∧
      (Reconcile rOv [pW "a" 10 true]).2[0]? =
        some { Target := "a", WindowActivity := 10, HeuristicAttention := true,
               Status := StatusIdle } ∧
      (Reconcile rOv [pW "a" 10 true]).1.prevActivity "a" = some 10 ∧
      ((11 : Int) > 10) ∧
      (Reconcile rOv [pW "a" 11 false]).1.overrides "a" = none ∧
      (Reconcile rOv [pW "a" 11 false]).2[0]? =
        some { Target := "a", WindowActivity := 11, HeuristicAttention := false,
               Status := StatusBusy } :=
  ⟨by decide, by decide,
    ((reconcile_override_semantics rOv [] [] (pW "a" 10 true)
        { Status := StatusIdle, WindowActivity := 10 }
        (by simp) (by simp) (by decide)).1 (by decide)).1,
    ((reconcile_override_semantics rOv [] [] (pW "a" 10 true)
        { Status := StatusIdle, WindowActivity := 10 }
        (by simp) (by simp) (by decide)).1 (by decide)).2,
    by decide,
    ((reconcile_override_semantics rOv [] [] (pW "a" 11 false)
        { Status := StatusIdle, WindowActivity := 10 }
        (by simp) (by simp) (by decide)).2 (by decide)).1,
    ((reconcile_override_semantics rOv [] [] (pW "a" 11 false)
        { Status := StatusIdle, WindowActivity := 10 }
        (by simp) (by simp) (by decide)).2 (by decide)).2 10 (by decide) (by decide)⟩

theorem reconcile_busy_stall_unread_witness :
    rBusy.overrides "a" = none ∧
      rBusy.prevStatuses "a" = some StatusBusy ∧
      activityIncreased rBusy (pW "a" 5 false) = false ∧
      (¬ (5 : Int) > 5) ∧
      (Reconcile rBusy [pW "a" 5 false]).2[0]? =
        some { Target := "a", WindowActivity := 5, HeuristicAttention := false,
               Status := StatusUnread } ∧
      (Reconcile (Reconcile rBusy [pW "a" 5 false]).1 [pW "a" 5 false]).2[0]? =
        some { Target := "a", WindowActivity := 5, HeuristicAttention := false,
               Status := StatusUnread } := by
  have h := reconcile_busy_stall_unread rBusy [] [] [] [] (pW "a" 5 false)
    (pW "a" 5 false) (by simp) (by simp) (by simp) rfl (by decide) (by decide)
    (by decide) (by decide) (by decide) (by decide)
  exact ⟨by decide, by decide, by decide, by decide, h.1, h.2⟩

theorem reconcile_first_sighting_not_busy_witness :
    NewReconciler.prevActivity "b" = none ∧
      NewReconciler.prevStatuses "b" = none ∧
      NewReconciler.overrides "b" = none ∧
      (Reconcile NewReconciler [pW "b" 100 true]).2[0]? =
        some { Target := "b", WindowActivity := 100, HeuristicAttention := true,
               Status := StatusNeedsAttention } :=
  ⟨rfl, rfl, rfl,
    reconcile_first_sighting_not_busy NewReconciler [] [] (pW "b" 100 true)
      (by simp) rfl rfl rfl rfl⟩

theorem cleanup_purges_absent_targets_witness :
    ("t" ∉ ([] : List Pane).map (·.Target)) ∧
      (Reconcile rOrphan []).1.prevActivity "t" = none ∧
      (Reconcile rOrphan []).1.overrides "t" = none ∧
      (Reconcile rOrphan []).1.prevStatuses "t" = rOrphan.prevStatuses "t" :=
  ⟨by simp,
    (cleanup_purges_absent_targets rOrphan [] "t" (by simp)).1,
    (cleanup_purges_absent_targets rOrphan [] "t" (by simp)).2.1,
    (cleanup_purges_absent_targets rOrphan [] "t" (by simp)).2.2.2 rfl⟩

/-! ### Claim theorems: attention heuristic -/

/-- The per-line predicate the trailing-question scan actually implements:
the line trims to something non-empty that ends with `"?"` and does not
start with the prompt glyph. -/
def qLine (l : String) : Bool :=
  !(trimSpace l == "") &&
    (goHasSuffix (trimSpace l) "?" && !goStartsWith (trimSpace l) "❯")

theorem questionScan_eq_any (l : List String) : questionScan l = l.any qLine := by
  induction l with
  | nil => rfl
  | cons a rest ih =>
    by_cases h1 : trimSpace a = ""
    · simp [questionScan, qLine, h1, ih]
    · cases h2 : goHasSuffix (trimSpace a) "?" && !goStartsWith (trimSpace a) "❯" with
      | true => simp [questionScan, qLine, h1, h2]
      | false => simp [questionScan, qLine, h1, h2, ih]

/-- C5 counterexample: in `["Done?", "ok"]` the most recent non-empty line
is `"ok"`, which does not end with a question mark, and no fixed phrase
occurs — yet `needsAttention` returns `true`, because its backward scan
does not stop at the most recent non-empty line. -/
theorem needsAttention_old_question_triggers :
    needsAttention ["Done?", "ok"] = true ∧
      specNeedsAttention ["Done?", "ok"] = false := by
  constructor <;> decide

/-- C5 amended: the heuristic returns true iff a fixed phrase occurs in the
joined content, or SOME captured line (not only the most recent non-empty
one) trims to a non-empty string that ends with a question mark and does
not start with the prompt glyph `❯`. -/
theorem needsAttention_characterization (lines : List String) :
    needsAttention lines =
      (attentionPatterns.any
          (fun pat => goContains (String.intercalate "\n" lines) pat) ||
        lines.any qLine) := by
  unfold needsAttention
  rw [questionScan_eq_any, List.any_reverse]

/-! ### Claim theorems: override merging -/

theorem mergePane_prevActivity (r : Reconciler) (cp : CachedPane) :
    (mergePane r cp).prevActivity = r.prevActivity := by
  unfold mergePane
  cases cp.StatusOverride <;> [rfl; (cases r.overrides cp.Target <;> rfl)]

theorem mergePane_prevStatuses (r : Reconciler) (cp : CachedPane) :
    (mergePane r cp).prevStatuses = r.prevStatuses := by
  unfold mergePane
  cases cp.StatusOverride <;> [rfl; (cases r.overrides cp.Target <;> rfl)]

theorem mergePane_preserve (r : Reconciler) (cp : CachedPane) (t : String)
    (ov : StatusOverride) (h : r.overrides t = some ov) :
    (mergePane r cp).overrides t = some ov := by
  unfold mergePane
  cases cp.StatusOverride with
  | none => exact h
  | some s =>
    cases hex : r.overrides cp.Target with
    | some o => exact h
    | none =>
      simp only [mapUpdate]
      by_cases ht : t = cp.Target
      · rw [ht] at h; rw [h] at hex; exact absurd hex (by simp)
      · simp [ht, h]

theorem mergePane_other (r : Reconciler) (cp : CachedPane) (t : String)
    (h : cp.Target = t → cp.StatusOverride = none) :
    (mergePane r cp).overrides t = r.overrides t := by
  unfold mergePane
  cases hso : cp.StatusOverride with
  | none => rfl
  | some s =>
    cases hex : r.overrides cp.Target with
    | some o => rfl
    | none =>
      simp only [mapUpdate]
      by_cases ht : t = cp.Target
      · exact absurd (h ht.symm) (by simp [hso])
      · simp [ht]

theorem mergeFold_preserve (l : List CachedPane) (r : Reconciler) (t : String)
    (ov : StatusOverride) (h : r.overrides t = some ov) :
    (l.foldl mergePane r).overrides t = some ov := by
  induction l generalizing r with
  | nil => exact h
  | cons a rest ih => exact ih (mergePane r a) (mergePane_preserve r a t ov h)

theorem mergeFold_other (l : List CachedPane) (r : Reconciler) (t : String)
    (h : ∀ cp ∈ l, cp.Target = t → cp.StatusOverride = none) :
    (l.foldl mergePane r).overrides t = r.overrides t := by
  induction l generalizing r with
  | nil => rfl
  | cons a rest ih =>
    rw [List.foldl_cons, ih _ (fun cp hcp => h cp (by simp [hcp])),
      mergePane_other r a t (h a (by simp))]

theorem mergeFold_absorb (l : List CachedPane) (r : Reconciler) (t : String)
    (cp : CachedPane) (hmem : cp ∈ l) (htgt : cp.Target = t)
    (hso : cp.StatusOverride ≠ none) :
    (l.foldl mergePane r).overrides t ≠ none := by
  induction l generalizing r with
  | nil => exact absurd hmem (by simp)
  | cons a rest ih =>
    simp only [List.foldl_cons]
    rcases List.mem_cons.mp hmem with hcp | hcp
    · subst hcp
      cases hmid : (mergePane r cp).overrides t with
      | some o => simp [mergeFold_preserve rest _ t o hmid]
      | none =>
        exfalso
        revert hmid
        unfold mergePane
        cases hso2 : cp.StatusOverride with
        | none => exact absurd hso2 hso
        | some s =>
          cases hex : r.overrides cp.Target with
          | some o => rw [← htgt]; simp [hex]
          | none => simp [mapUpdate, htgt]
    · cases hmid : (mergePane r a).overrides t with
      | some o => simp [mergeFold_preserve rest _ t o hmid]
      | none => exact ih (mergePane r a) hcp

/-- C6: `MergeOverrides` leaves every locally tracked override exactly
unchanged, touches no other reconciler map, changes nothing for targets
whose cached panes carry no persisted override, and absorbs a persisted
override whenever no override is tracked locally for that target. -/
theorem merge_overrides_absorb_only_new (r : Reconciler) (st : State) :
    (∀ t ov, r.overrides t = some ov →
        (MergeOverrides r st).overrides t = some ov) ∧
      (∀ t, (MergeOverrides r st).prevActivity t = r.prevActivity t) ∧
      (∀ t, (MergeOverrides r st).prevStatuses t = r.prevStatuses t) ∧
      (∀ t, (∀ cp ∈ st.Panes, cp.Target = t → cp.StatusOverride = none) →
        (MergeOverrides r st).overrides t = r.overrides t) ∧
      (∀ t cp, r.overrides t = none → cp ∈ st.Panes → cp.Target = t →
        cp.StatusOverride ≠ none → (MergeOverrides r st).overrides t ≠ none) := by
  refine ⟨fun t ov h => mergeFold_preserve st.Panes r t ov h, ?_, ?_, ?_,
    fun t cp h hmem htgt hso => mergeFold_absorb st.Panes r t cp hmem htgt hso⟩
  · intro t
    unfold MergeOverrides
    generalize st.Panes = l
    induction l generalizing r with
    | nil => rfl
    | cons a rest ih => rw [List.foldl_cons, ih, mergePane_prevActivity]
  · intro t
    unfold MergeOverrides
    generalize st.Panes = l
    induction l generalizing r with
    | nil => rfl
    | cons a rest ih => rw [List.foldl_cons, ih, mergePane_prevStatuses]
  · intro t h
    exact mergeFold_other st.Panes r t h

/-- A cached pane carrying only the fields that matter to override
merging. -/
def mkCached (t : String) (so : Option Int) (wa : Int) : CachedPane :=
  { Target := t, Path := "", ShortPath := "", GitBranch := "",
    GitDirty := false, Stashed := false, StatusOverride := so,
    WindowActivity := wa, LastStatus := none, LastActive := none }

/-- Persisted state carrying a foreign override for `"a"` (already tracked
locally by `rOv`), a fresh one for `"b"`, and none for `"c"`. -/
def stW : State :=
  { Version := 4,
    Panes := [mkCached "a" (some 2) 50, mkCached "b" (some 3) 7,
              mkCached "c" none 9],
    LastPosition := zeroLastPosition, SidebarWidth := 0 }

theorem merge_overrides_absorb_only_new_witness :
    rOv.overrides "a" = some { Status := StatusIdle, WindowActivity := 10 } ∧
      (MergeOverrides rOv stW).overrides "a" =
        some { Status := StatusIdle, WindowActivity := 10 } ∧
      (MergeOverrides rOv stW).prevActivity "a" = rOv.prevActivity "a" ∧
      (MergeOverrides rOv stW).prevStatuses "b" = rOv.prevStatuses "b" ∧
      (MergeOverrides rOv stW).overrides "c" = rOv.overrides "c" ∧
      (MergeOverrides rOv stW).overrides "b" ≠ none :=
  ⟨by decide,
    (merge_overrides_absorb_only_new rOv stW).1 "a"
      { Status := StatusIdle, WindowActivity := 10 } (by decide),
    (merge_overrides_absorb_only_new rOv stW).2.1 "a",
    (merge_overrides_absorb_only_new rOv stW).2.2.1 "b",
    (merge_overrides_absorb_only_new rOv stW).2.2.2.1 "c" (by decide),
    (merge_overrides_absorb_only_new rOv stW).2.2.2.2 "b"
      (mkCached "b" (some 3) 7) (by decide) (by simp [stW]) rfl (by decide)⟩

/-! ### Claim theorems: agent resolution -/

/-- The registry of the resolution scenario: `gemini` and `claude` are
registered agent names. -/
def regW : String → Bool := fun c => c = "gemini" || c = "claude"

/-- Process table for the scenario: the pane's foreground process 10 has one
child 20 running as `node` with `/usr/local/bin/gemini --flag` in its
argument string. -/
def ptW : ProcessTable :=
  { Children := fun p => if p = 10 then [20] else []
    Comm := fun p => if p = 20 then "node" else ""
    Args := fun p => if p = 20 then "/usr/local/bin/gemini --flag" else "" }

/-- Variant table whose child's command name is itself a registered agent
under a path. -/
def ptW2 : ProcessTable :=
  { Children := fun p => if p = 10 then [20] else []
    Comm := fun p => if p = 20 then "/usr/bin/claude" else ""
    Args := fun _ => "" }

/-- C9: agent resolution returns the foreground command when registered;
otherwise it walks the direct children, matching the child's command
basename first and then the path-stripped tokens of its argument string,
first match winning; a pane that resolves to nothing is filtered out of the
discovery result entirely, and surviving panes carry the resolved command.
In particular a `node` pane whose child has `/usr/local/bin/gemini --flag`
in its arguments resolves to `gemini`. -/
theorem resolve_agent_panes_spec :
    (∀ (reg : String → Bool) (cmd : String) (pid : Int) (pt : ProcessTable),
       reg cmd = true → Resolve reg cmd pid pt = cmd) ∧
      (∀ (reg : String → Bool) (pt : ProcessTable) (raw : List RawPane),
        (resolveAgentPanes reg pt raw).map (·.target) =
          (raw.filter (fun r => Resolve reg r.cmd r.pid pt ≠ "")).map (·.target)) ∧
      (∀ (reg : String → Bool) (pt : ProcessTable) (raw : List RawPane),
        ∀ q ∈ resolveAgentPanes reg pt raw,
          ∃ r, r ∈ raw ∧ q.target = r.target ∧ q.pid = r.pid ∧
            q.cmd = Resolve reg r.cmd r.pid pt ∧ q.cmd ≠ "") ∧
      (∀ (reg : String → Bool) (cmd : String) (pid : Int) (pt : ProcessTable)
          (c : Int) (rest : List Int),
        reg cmd = false → pt.Children pid = c :: rest →
        reg (stripPath (pt.Comm c)) = true →
        Resolve reg cmd pid pt = stripPath (pt.Comm c)) ∧
      (∀ (reg : String → Bool) (cmd : String) (pid : Int) (pt : ProcessTable)
          (c : Int) (rest : List Int) (a : String),
        reg cmd = false → pt.Children pid = c :: rest →
        reg (stripPath (pt.Comm c)) = false →
        scanArgs reg (goSplit ' ' (pt.Args c)) = some a →
        Resolve reg cmd pid pt = a) ∧
      Resolve regW "node" 10 ptW = "gemini" := by
  refine ⟨?_, ?_, ?_, ?_, ?_, by decide⟩
  · intro reg cmd pid pt h
    unfold Resolve
    simp [h]
  · intro reg pt raw
    induction raw with
    | nil => rfl
    | cons r rest ih =>
      by_cases hc : Resolve reg r.cmd r.pid pt = ""
      · simp [resolveAgentPanes, List.filterMap_cons, List.filter_cons, hc] at ih ⊢
        exact ih
      · simp [resolveAgentPanes, List.filterMap_cons, List.filter_cons, hc] at ih ⊢
        exact ih
  · intro reg pt raw q hq
    unfold resolveAgentPanes at hq
    obtain ⟨r, hr, hf⟩ := List.mem_filterMap.mp hq
    by_cases hc : Resolve reg r.cmd r.pid pt = ""
    · simp [hc] at hf
    · simp only [hc, if_neg, if_false] at hf
      injection hf with hf
      subst hf
      exact ⟨r, hr, rfl, rfl, rfl, hc⟩
  · intro reg cmd pid pt c rest hcmd hch hbase
    unfold Resolve
    rw [hcmd, hch]
    unfold scanChildren
    simp [hbase]
  · intro reg cmd pid pt c rest a hcmd hch hbase hargs
    unfold Resolve
    rw [hcmd, hch]
    unfold scanChildren
    simp [hbase, hargs]

/-- Two discovered panes: one `node` pane that resolves via its child's
arguments, one `vim` pane that resolves to nothing. -/
def rawW : List RawPane :=
  [{ target := "s:1.0", cmd := "node", pid := 10 },
   { target := "s:1.1", cmd := "vim", pid := 99 }]

theorem resolve_agent_panes_spec_witness :
    regW "claude" = true ∧
      Resolve regW "claude" 10 ptW = "claude" ∧
      regW "node" = false ∧
      ptW2.Children 10 = [20] ∧
      regW (stripPath (ptW2.Comm 20)) = true ∧
      Resolve regW "node" 10 ptW2 = stripPath (ptW2.Comm 20) ∧
      scanArgs regW (goSplit ' ' (ptW.Args 20)) = some "gemini" ∧
      Resolve regW "node" 10 ptW = "gemini" ∧
      (resolveAgentPanes regW ptW rawW).map (·.target) =
        (rawW.filter (fun r => Resolve regW r.cmd r.pid ptW ≠ "")).map (·.target) :=
  ⟨by decide,
    resolve_agent_panes_spec.1 regW "claude" 10 ptW (by decide),
    by decide, by decide, by decide,
    resolve_agent_panes_spec.2.2.2.1 regW "node" 10 ptW2 20 [] (by decide)
      (by decide) (by decide),
    by decide,
    resolve_agent_panes_spec.2.2.2.2.2,
    resolve_agent_panes_spec.2.1 regW ptW _⟩

/-! ### Claim theorems: persisted state store -/

theorem decodePane_encodePane (cp : CachedPane) :
    decodePane (encodePane cp) = some cp := by
  obtain ⟨tg, path, sp, gb, gd, st, so, wa, ls, la⟩ := cp
  by_cases hgb : gb = "" <;> cases gd <;> rcases so with _ | s <;>
    by_cases hwa : wa = 0 <;> rcases ls with _ | l <;> rcases la with _ | t <;>
    simp [encodePane, paneFields, fieldIf, decodePane, lookupField, decStr,
      decInt, decBool, decOptInt, decOptStr, hgb, hwa]

theorem decodePaneList_encode (l : List CachedPane) :
    decodePaneList (l.map encodePane) = some l := by
  induction l with
  | nil => rfl
  | cons cp rest ih =>
    simp [decodePaneList, decodePane_encodePane, ih]

theorem decodeLastPosition_encode (lp : LastPosition) :
    decodeLastPosition (some (encodeLastPosition lp)) = some lp := by
  obtain ⟨pt, c, sc⟩ := lp
  simp [encodeLastPosition, decodeLastPosition, lookupField, decStr, decInt]

/-- Marshalling and unmarshalling a state document round-trips exactly. -/
theorem decodeState_encodeState (s : State) :
    decodeState (encodeState s) = some s := by
  obtain ⟨v, panes, lp, sw⟩ := s
  by_cases hsw : sw = 0 <;>
    simp [encodeState, decodeState, lookupField, fieldIf, decInt, decodePanes,
      decodePaneList_encode, decodeLastPosition_encode, hsw]

/-- C7: `LoadState` returns the parsed document with `ok = true` exactly
when the file was readable, parsed as JSON and carries schema version 4; a
read failure, a parse failure, or a version mismatch — for instance a
version-1 document written by `SaveState`-style marshalling — each yield the
zero `State` with `ok = false`, never a partially parsed document. -/
theorem loadState_version_gate :
    LoadState none = (zeroState, false) ∧
      LoadState (some none) = (zeroState, false) ∧
      (∀ j s, decodeState j = some s → s.Version = 4 →
        LoadState (some (some j)) = (s, true)) ∧
      (∀ j, decodeState j = none → LoadState (some (some j)) = (zeroState, false)) ∧
      (∀ j s, decodeState j = some s → s.Version ≠ 4 →
        LoadState (some (some j)) = (zeroState, false)) ∧
      (∀ s : State, LoadState (some (some (encodeState { s with Version := 1 }))) =
        (zeroState, false)) := by
  refine ⟨rfl, rfl, ?_, ?_, ?_, ?_⟩
  · intro j s hdec hv
    simp [LoadState, hdec, hv]
  · intro j hdec
    simp [LoadState, hdec]
  · intro j s hdec hv
    simp [LoadState, hdec, hv]
  · intro s
    have h := decodeState_encodeState { s with Version := 1 }
    simp [LoadState, h]

theorem loadState_version_gate_witness :
    decodeState (encodeState { zeroState with Version := 4 }) =
        some { zeroState with Version := 4 } ∧
      LoadState (some (some (encodeState { zeroState with Version := 4 }))) =
        ({ zeroState with Version := 4 }, true) ∧
      decodeState (.jstr "garbage") = none ∧
      LoadState (some (some (.jstr "garbage"))) = (zeroState, false) ∧
      decodeState (encodeState { zeroState with Version := 1 }) =
        some { zeroState with Version := 1 } ∧
      ({ zeroState with Version := 1 } : State).Version ≠ 4 ∧
      LoadState (some (some (encodeState { zeroState with Version := 1 }))) =
        (zeroState, false) :=
  ⟨by decide,
    loadState_version_gate.2.2.1 (encodeState { zeroState with Version := 4 })
      { zeroState with Version := 4 } (by decide) (by decide),
    rfl, loadState_version_gate.2.2.2.1 (.jstr "garbage") rfl,
    by decide, by decide,
    loadState_version_gate.2.2.2.2.1 (encodeState { zeroState with Version := 1 })
      { zeroState with Version := 1 } (by decide) (by decide)⟩

/-- C8: saving a state document and loading it immediately succeeds and
yields the saved document (with the stamped schema version); in particular
every cached pane's daemon-owned fields — last-known status, activity
baseline, and override — round-trip unchanged. -/
theorem saveState_loadState_roundtrip (s : State) :
    LoadState (some (some (SaveState s))) = ({ s with Version := 4 }, true) ∧
      (LoadState (some (some (SaveState s)))).1.Panes = s.Panes := by
  have h := decodeState_encodeState { s with Version := 4 }
  constructor
  · simp [LoadState, SaveState, h]
  · simp [LoadState, SaveState, h]

end AgentMux
